import Mathlib

/-!
Shallow embedding of the load-testing engine in
`src/frontend/components/LoadTesting.tsx`.

Modelling conventions for JavaScript numbers on the integer inputs the app
uses: `Math.floor`, `Math.min`, `Math.max` are modelled over exact rational
arithmetic (the double literals `0.1`, `0.2`, `0.5` denote the rationals
`1/10`, `1/5`, `1/2` under `Math.floor` on every integer operand the app can
produce), and the `NaN` that JavaScript's `0 / 0` produces inside the stress
profile is modelled by `Option.none`; a positive integer divided by `0`
yields `Infinity`, and `Math.min(3, Infinity) = 3`, which is modelled by the
corresponding explicit branch.
-/

/-- The five load-test profile identifiers (`TestProfile` in the source). -/
inductive TestProfile
  | fixed
  | rampup
  | spike
  | stress
  | custom
  deriving DecidableEq, Repr

/-- The `fixed` profile: `getUsers: (_t, _d, max) => max`. -/
def fixedUsers (_t _d m : ℕ) (_r : ℤ) : Option ℤ :=
  some m

/-- The `rampup` profile:
`if (rampUp <= 0) return max; return Math.max(1, Math.floor(max * Math.min(1, (t + 1) / rampUp)))`. -/
def rampupUsers (t : ℕ) (_d : ℕ) (m : ℕ) (r : ℤ) : Option ℤ :=
  if r ≤ 0 then some m
  else some (max 1 ⌊(m : ℚ) * min 1 (((t : ℚ) + 1) / (r : ℚ))⌋)

/-- The `spike` profile: `mid = Math.floor(duration / 2)`,
`spikeWindow = Math.max(3, Math.floor(duration * 0.2))`; returns `max` when
`t >= mid - 1 && t < mid - 1 + spikeWindow`, otherwise
`Math.max(1, Math.floor(max * 0.1))`. -/
def spikeUsers (t : ℕ) (d : ℕ) (m : ℕ) (_r : ℤ) : Option ℤ :=
  let mid : ℤ := (d : ℤ) / 2
  let spikeWindow : ℤ := max 3 ⌊(d : ℚ) * (1 / 5)⌋
  if mid - 1 ≤ (t : ℤ) ∧ (t : ℤ) < mid - 1 + spikeWindow then some m
  else some (max 1 ⌊(m : ℚ) * (1 / 10)⌋)

/-- The `stress` profile: `stageLen = Math.floor(duration / 4)`,
`stage = Math.min(3, Math.floor(t / stageLen))`,
`Math.max(1, Math.floor(max * ((stage + 1) / 4)))`.  When `stageLen = 0`
(duration below 4) JavaScript computes `0 / 0 = NaN` at tick `0`, which
propagates to a `NaN` result (modelled as `none`), and `t / 0 = Infinity`
for positive `t`, so `Math.min(3, Infinity) = 3`. -/
def stressUsers (t : ℕ) (d : ℕ) (m : ℕ) (_r : ℤ) : Option ℤ :=
  let stageLen : ℕ := d / 4
  if stageLen = 0 then
    if t = 0 then none
    else some (max 1 ⌊(m : ℚ) * (((3 : ℚ) + 1) / 4)⌋)
  else
    let stage : ℕ := min 3 (t / stageLen)
    some (max 1 ⌊(m : ℚ) * (((stage : ℚ) + 1) / 4)⌋)

/-- The `custom` profile, textually identical to `rampup` in the source. -/
def customUsers (t : ℕ) (_d : ℕ) (m : ℕ) (r : ℤ) : Option ℤ :=
  if r ≤ 0 then some m
  else some (max 1 ⌊(m : ℚ) * min 1 (((t : ℚ) + 1) / (r : ℚ))⌋)

/-- Dispatch on the profile identifier, as `testProfiles.find` does. -/
def getUsers : TestProfile → ℕ → ℕ → ℕ → ℤ → Option ℤ
  | .fixed => fixedUsers
  | .rampup => rampupUsers
  | .spike => spikeUsers
  | .stress => stressUsers
  | .custom => customUsers

/-- A key/value row of the request-builder tables (`KeyValuePair` in
`RequestBuilder.tsx`); `id` is a UI key and never affects materialization. -/
structure KeyValuePair where
  key : String
  value : String
  enabled : Bool
  id : String
  deriving DecidableEq, Repr

/-- A JavaScript `RequestInit.body` value: a string body or a `FormData`. -/
inductive FetchBody
  | text (s : String)
  | formData
  deriving DecidableEq, Repr

/-- The slice of a JavaScript `RequestInit` that `buildFetchOptions`
populates.  `headers` is `none` when the function never assigns
`opts.headers`; the header object itself is an insertion-ordered list of
distinct keys, as a JS object record is. -/
structure FetchOptions where
  method : String
  headers : Option (List (String × String))
  body : Option FetchBody
  deriving DecidableEq, Repr

/-- JavaScript object assignment `h[k] = v`: overwrite in place when the key
exists, append otherwise. -/
def objSet (l : List (String × String)) (k v : String) : List (String × String) :=
  if l.any (fun p => p.1 == k) then
    l.map (fun p => if p.1 = k then (k, v) else p)
  else l ++ [(k, v)]

/-- JavaScript object read `h[k]`: `some` value or `none` (`undefined`). -/
def objGet (l : List (String × String)) (k : String) : Option String :=
  (l.find? (fun p => p.1 == k)).map (fun p => p.2)

/-- The materializer `buildFetchOptions` of `LoadTesting.tsx`.  `btoa` is the
browser's Base64 encoder, passed in as a parameter of the model; its value
never matters to the claims below.  Truthiness tests on strings
(`p.key`, `authToken`, `bodyContent`) are non-emptiness tests.  Note the
source assigns `opts.headers = h` before the body branch mutates `h`:
because `h` is aliased, later mutations are visible on `opts.headers` when
it was assigned, and lost when it was not. -/
def buildFetchOptions (btoa : String → String) (method : String)
    (headers : List KeyValuePair)
    (authType authToken bodyType bodyContent : String) : FetchOptions :=
  let h0 : List (String × String) :=
    (headers.filter (fun p => p.enabled && p.key != "")).foldl
      (fun acc p => objSet acc p.key p.value) []
  let h1 : List (String × String) :=
    if authType = "bearer" ∧ authToken ≠ "" then
      objSet h0 "Authorization" ("Bearer " ++ authToken)
    else if authType = "basic" ∧ authToken ≠ "" then
      objSet h0 "Authorization" ("Basic " ++ btoa authToken)
    else if authType = "apikey" ∧ authToken ≠ "" then
      objSet h0 "X-API-Key" authToken
    else h0
  let attach : Bool := h1.length != 0
  let bodyStep : List (String × String) × Option FetchBody :=
    if method ≠ "GET" ∧ method ≠ "HEAD" then
      if bodyType = "json" ∧ bodyContent ≠ "" then
        let ct : String :=
          match objGet h1 "Content-Type" with
          | some v => if v = "" then "application/json" else v
          | none => "application/json"
        (objSet h1 "Content-Type" ct, some (FetchBody.text bodyContent))
      else if bodyType = "raw" ∧ bodyContent ≠ "" then
        (h1, some (FetchBody.text bodyContent))
      else if bodyType = "formdata" then (h1, some FetchBody.formData)
      else (h1, none)
    else (h1, none)
  { method := method
    headers := if attach then some bodyStep.1 else none
    body := bodyStep.2 }

/-- Outcome of one virtual-user request inside a tick: the `fetch` resolved
(success, with its measured wall-clock latency in whole milliseconds) or
threw (transport failure). -/
inductive ReqOutcome
  | success (lat : ℕ)
  | failure
  deriving DecidableEq, Repr

/-- Whether an outcome entered the `catch` branch. -/
def ReqOutcome.isFailure : ReqOutcome → Bool
  | .failure => true
  | .success _ => false

/-- The value each tick promise resolves to: the latency `dur` on success,
`-1` on failure. -/
def resultOf : ReqOutcome → ℤ
  | .success l => (l : ℤ)
  | .failure => -1

/-- The `results` array of a tick. -/
def tickResults (outs : List ReqOutcome) : List ℤ :=
  outs.map resultOf

/-- The latencies a tick pushes onto `allTimes` (successes only, including
zero-millisecond ones). -/
def tickTimes (outs : List ReqOutcome) : List ℤ :=
  outs.filterMap (fun o => match o with | .success l => some (l : ℤ) | .failure => none)

/-- Ascending sort, as `sort((a, b) => a - b)` on an array of numbers. -/
def sortAsc (l : List ℤ) : List ℤ :=
  List.insertionSort (fun a b => a ≤ b) l

/-- JavaScript `Math.round` on the app's non-negative inputs:
round half up. -/
def jsRound (x : ℚ) : ℤ :=
  ⌊x + 1 / 2⌋

/-- The percentile index `Math.floor(sortedCount * q)`. -/
def pIdx (n : ℕ) (q : ℚ) : ℕ :=
  (⌊(n : ℚ) * q⌋).toNat

/-- Percentile of a latency list: `sorted.length ? sorted[Math.floor(sorted.length * q)] : 0`,
over the ascending-sorted list. -/
def pctl (l : List ℤ) (q : ℚ) : ℤ :=
  let sorted := sortAsc l
  if sorted.length ≠ 0 then sorted.getD (pIdx sorted.length q) 0 else 0

/-- Average of a latency list: `len ? reduce(+) / len : 0`. -/
def listAvg (l : List ℤ) : ℚ :=
  if l.length ≠ 0 then (l.sum : ℚ) / (l.length : ℚ) else 0

/-- One point of the live metric series (`MetricPoint` in the source). -/
structure MetricPoint where
  time : ℕ
  avgResponseTime : ℤ
  p95 : ℤ
  p99 : ℤ
  rps : ℚ
  errorRate : ℚ
  activeUsers : ℕ
  deriving DecidableEq, Repr

/-- The mutable run state of `runTest`: the full-run latency history
`allTimes`, the counters `totalReqs` and `errors`, and the metric series
appended to by `setMetrics`. -/
structure RunAcc where
  allTimes : List ℤ
  totalReqs : ℕ
  errors : ℕ
  metrics : List MetricPoint
  deriving DecidableEq, Repr

/-- One iteration of the `for (let t = 0; t < duration; t++)` loop of
`runTest`, given the settled outcomes `outs` of the tick's fan-out (the
source creates exactly `activeUsers` promises, so `outs.length` is the
tick's active-user count; within-tick completion order is immaterial to
every aggregate computed from it). -/
def stepTick (acc : RunAcc) (t : ℕ) (outs : List ReqOutcome) : RunAcc :=
  let totalReqs := acc.totalReqs + outs.length
  let errors := acc.errors + outs.countP ReqOutcome.isFailure
  let valid := (tickResults outs).filter (fun r => decide (0 < r))
  let point : MetricPoint :=
    { time := t + 1
      avgResponseTime := jsRound (listAvg valid)
      p95 := jsRound ((pctl valid (95 / 100) : ℚ))
      p99 := jsRound ((pctl valid (99 / 100) : ℚ))
      rps := (jsRound ((totalReqs : ℚ) / ((t : ℚ) + 1) * 100) : ℚ) / 100
      errorRate :=
        if 0 < totalReqs then
          (jsRound ((errors : ℚ) / (totalReqs : ℚ) * 10000) : ℚ) / 100
        else 0
      activeUsers := outs.length }
  { allTimes := acc.allTimes ++ tickTimes outs
    totalReqs := totalReqs
    errors := errors
    metrics := acc.metrics ++ [point] }

/-- The whole tick loop, over the per-tick outcome lists actually executed
(cancellation truncates this list; a cancelled run simply has fewer
entries). -/
def runAggregate (ticks : List (List ReqOutcome)) : RunAcc :=
  ticks.enum.foldl (fun acc p => stepTick acc p.1 p.2) ⟨[], 0, 0, []⟩

/-- The final summary object (`TestSummary` in the source). -/
structure TestSummary where
  totalRequests : ℕ
  successCount : ℤ
  errorCount : ℕ
  avgResponseTime : ℤ
  minResponseTime : ℤ
  maxResponseTime : ℤ
  p95 : ℤ
  p99 : ℤ
  rps : ℚ
  deriving DecidableEq, Repr

/-- The `setSummary` object literal at the end of `runTest`. -/
def mkSummary (duration : ℕ) (acc : RunAcc) : TestSummary :=
  let sortedAll := sortAsc acc.allTimes
  { totalRequests := acc.totalReqs
    successCount := (acc.totalReqs : ℤ) - (acc.errors : ℤ)
    errorCount := acc.errors
    avgResponseTime :=
      if sortedAll.length ≠ 0 then jsRound (listAvg sortedAll) else 0
    minResponseTime := sortedAll.headD 0
    maxResponseTime := sortedAll.getLastD 0
    p95 := pctl acc.allTimes (95 / 100)
    p99 := pctl acc.allTimes (99 / 100)
    rps :=
      if 0 < duration then
        (jsRound ((acc.totalReqs : ℚ) / (duration : ℚ) * 100) : ℚ) / 100
      else 0 }

/-- A terminal run (completed or cancelled): aggregate the executed ticks
and summarize. -/
def runTest (duration : ℕ) (ticks : List (List ReqOutcome)) : TestSummary :=
  mkSummary duration (runAggregate ticks)

/-! Helper lemmas shared by several claims. -/

/-- Floor of a quotient of naturals over ℚ is natural floor division. -/
lemma floor_nat_div (a b : ℕ) : ⌊(a : ℚ) / (b : ℚ)⌋ = ((a / b : ℕ) : ℤ) := by
  rw [Int.natCast_div]
  have h := Rat.floor_intCast_div_natCast (a : ℤ) b
  rwa [Int.cast_natCast] at h

/-- Scaling a natural by a factor at most one and flooring stays below it. -/
lemma floor_mul_le_self (m : ℕ) {q : ℚ} (hq : q ≤ 1) : ⌊(m : ℚ) * q⌋ ≤ (m : ℤ) := by
  calc ⌊(m : ℚ) * q⌋ ≤ ⌊(m : ℚ)⌋ :=
        Int.floor_le_floor (mul_le_of_le_one_right (by positivity) hq)
    _ = (m : ℤ) := Int.floor_natCast m

/-- The percentile index is in range for non-empty lists. -/
lemma pIdx_lt (n : ℕ) (hn : n ≠ 0) {q : ℚ} (h1 : q < 1) : pIdx n q < n := by
  have hfl : ⌊(n : ℚ) * q⌋ < (n : ℤ) := by
    apply Int.floor_lt.mpr
    push_cast
    calc (n : ℚ) * q < (n : ℚ) * 1 :=
          mul_lt_mul_of_pos_left h1 (by exact_mod_cast Nat.pos_of_ne_zero hn)
      _ = (n : ℚ) := mul_one _
  unfold pIdx
  omega

/-- In a list sorted ascending, the head is a lower bound. -/
lemma sorted_head_le {a : ℤ} {rest : List ℤ}
    (hs : (a :: rest).Sorted (fun x y => x ≤ y)) :
    ∀ x ∈ a :: rest, a ≤ x := by
  intro x hx
  rcases List.mem_cons.mp hx with h | h
  · exact h ▸ le_refl a
  · exact List.rel_of_sorted_cons hs x h

/-- In a list sorted ascending, the last element is an upper bound. -/
lemma mem_le_getLast :
    ∀ {l : List ℤ}, l.Sorted (fun x y => x ≤ y) →
      ∀ (hne : l ≠ []) (x : ℤ), x ∈ l → x ≤ l.getLast hne := by
  intro l
  induction l with
  | nil => intro _ hne; exact absurd rfl hne
  | cons a rest ih =>
    intro hs hne x hx
    cases rest with
    | nil =>
      simp only [List.mem_singleton] at hx
      simp [hx]
    | cons b r =>
      rw [List.getLast_cons (by simp)]
      rcases List.mem_cons.mp hx with h | h
      · subst h
        exact List.rel_of_sorted_cons hs _ (List.getLast_mem _)
      · exact ih hs.of_cons (by simp) x h

/-- A round-half-up of a value above an integer stays at or above it. -/
lemma le_jsRound {a : ℤ} {x : ℚ} (h : (a : ℚ) ≤ x) : a ≤ jsRound x := by
  apply Int.le_floor.mpr
  linarith

/-- A round-half-up of a value below an integer stays at or below it. -/
lemma jsRound_le {b : ℤ} {x : ℚ} (h : x ≤ (b : ℚ)) : jsRound x ≤ b := by
  unfold jsRound
  calc ⌊x + 1 / 2⌋ ≤ ⌊(b : ℚ) + 1 / 2⌋ := Int.floor_le_floor (by linarith)
    _ = b + ⌊(1 / 2 : ℚ)⌋ := Int.floor_int_add b (1 / 2)
    _ = b := by norm_num

/-! Claim theorems. -/

/-- C8: for every input tuple, the custom profile's user-count function
returns exactly the ramp-up profile's value. -/
theorem custom_eq_rampup :
    ∀ (t d m : ℕ) (r : ℤ), customUsers t d m r = rampupUsers t d m r :=
  fun _ _ _ _ => rfl

/-- C10: with an empty credential, every auth kind (bearer, basic, api-key)
materializes exactly the same request as auth kind none — no auth header is
added. -/
theorem empty_token_no_auth_header (btoa : String → String) (method : String)
    (headers : List KeyValuePair) (authType bodyType bodyContent : String)
    (h : authType = "bearer" ∨ authType = "basic" ∨ authType = "apikey") :
    buildFetchOptions btoa method headers authType "" bodyType bodyContent =
      buildFetchOptions btoa method headers "none" "" bodyType bodyContent := by
  rcases h with h | h | h <;> subst h <;> simp [buildFetchOptions]

/-- Witness for C10 at a concrete input. -/
theorem empty_token_no_auth_header_witness :
    buildFetchOptions id "POST" [] "bearer" "" "json" "a" =
      buildFetchOptions id "POST" [] "none" "" "json" "a" :=
  empty_token_no_auth_header id "POST" [] "bearer" "json" "a" (Or.inl rfl)

/-- C2 (code bug evaluation): for a POST with json body kind, a non-empty
body, no enabled headers and no auth, the body text is passed through
unmodified but `opts.headers` is never assigned — the defaulted
`Content-Type: application/json` is written into a header object that was
already dropped, so the request is sent with no headers at all. -/
theorem json_content_type_lost :
    (buildFetchOptions id "POST" [] "none" "" "json" "a").headers = none ∧
    (buildFetchOptions id "POST" [] "none" "" "json" "a").body =
      some (FetchBody.text "a") := by
  constructor <;> rfl

/-- C5: the ramp-up profile follows
`max(1, floor(maxUsers * min(1, (t+1)/rampUp)))` when `rampUp > 0`, equals
`maxUsers` when `rampUp <= 0`, and with `maxUsers = 100, rampUp = 5`
produces 20 at tick 0, 100 at tick 4, and 100 at tick 10. -/
theorem rampup_formula :
    (∀ (t d m : ℕ) (r : ℤ), 0 < r →
        rampupUsers t d m r =
          some (max 1 ⌊(m : ℚ) * min 1 (((t : ℚ) + 1) / (r : ℚ))⌋)) ∧
    (∀ (t d m : ℕ) (r : ℤ), r ≤ 0 → rampupUsers t d m r = some (m : ℤ)) ∧
    (∀ d, rampupUsers 0 d 100 5 = some 20) ∧
    (∀ d, rampupUsers 4 d 100 5 = some 100) ∧
    (∀ d, rampupUsers 10 d 100 5 = some 100) := by
  refine ⟨fun t d m r hr => ?_, fun t d m r hr => ?_,
    fun d => ?_, fun d => ?_, fun d => ?_⟩
  · rw [rampupUsers, if_neg (not_le.mpr hr)]
  · rw [rampupUsers, if_pos hr]
  · norm_num [rampupUsers]
  · norm_num [rampupUsers]
  · norm_num [rampupUsers]

/-- Witness for C5 at a concrete input. -/
theorem rampup_formula_witness :
    (0 : ℤ) < 5 ∧
      rampupUsers 3 30 100 5 =
        some (max 1 ⌊(100 : ℚ) * min 1 (((3 : ℚ) + 1) / ((5 : ℤ) : ℚ))⌋) :=
  ⟨by norm_num, rampup_formula.1 3 30 100 5 (by norm_num)⟩

/-- C7: the spike profile returns `maxUsers` on the burst window
`mid - 1 <= t < mid - 1 + spikeWindow` (with `mid = floor(duration/2)` and
`spikeWindow = max(3, floor(duration/5))`) and the baseline
`max(1, floor(maxUsers/10))` everywhere else. -/
theorem spike_formula (t d m : ℕ) (r : ℤ) :
    spikeUsers t d m r =
      if ((d / 2 : ℕ) : ℤ) - 1 ≤ (t : ℤ) ∧
          (t : ℤ) < ((d / 2 : ℕ) : ℤ) - 1 + max 3 ((d / 5 : ℕ) : ℤ) then
        some (m : ℤ)
      else some (max 1 ((m / 10 : ℕ) : ℤ)) := by
  have h2 : (d : ℤ) / 2 = ((d / 2 : ℕ) : ℤ) := (Int.natCast_div d 2).symm
  have h5 : ⌊(d : ℚ) * (1 / 5)⌋ = ((d / 5 : ℕ) : ℤ) := by
    rw [mul_one_div]; exact floor_nat_div d 5
  have h10 : ⌊(m : ℚ) * (1 / 10)⌋ = ((m / 10 : ℕ) : ℤ) := by
    rw [mul_one_div]; exact floor_nat_div m 10
  simp only [spikeUsers, h2, h5, h10]

/-- Stage arithmetic of the stress profile reduces to natural division. -/
lemma floor_mul_stage (m s : ℕ) :
    ⌊(m : ℚ) * (((s : ℚ) + 1) / 4)⌋ = ((m * (s + 1) / 4 : ℕ) : ℤ) := by
  have h : (m : ℚ) * (((s : ℚ) + 1) / 4) = ((m * (s + 1) : ℕ) : ℚ) / ((4 : ℕ) : ℚ) := by
    push_cast; ring
  rw [h, floor_nat_div]

/-- C6: the stress profile steps through 4 equal stages of length
`floor(duration/4)`, returning `max(1, floor(maxUsers * (s+1)/4))` for stage
`s = min(3, floor(t/stageLen))`; with `duration = 40, maxUsers = 40` ticks
0-9 give 10, 10-19 give 20, 20-29 give 30, 30-39 give 40. -/
theorem stress_formula :
    (∀ (t d m : ℕ) (r : ℤ), 4 ≤ d →
        stressUsers t d m r =
          some (max 1 ((m * (min 3 (t / (d / 4)) + 1) / 4 : ℕ) : ℤ))) ∧
    (∀ t, t < 40 → stressUsers t 40 40 0 = some ((10 * (t / 10 + 1) : ℕ) : ℤ)) := by
  have hmain : ∀ (t d m : ℕ) (r : ℤ), 4 ≤ d →
      stressUsers t d m r =
        some (max 1 ((m * (min 3 (t / (d / 4)) + 1) / 4 : ℕ) : ℤ)) := by
    intro t d m r hd
    have hne : ¬ (d / 4 = 0) := by
      have h1 : 1 ≤ d / 4 := (Nat.one_le_div_iff (by norm_num)).mpr hd
      omega
    simp only [stressUsers]
    rw [if_neg hne, floor_mul_stage]
  have hN : ∀ t, t < 40 →
      max 1 (40 * (min 3 (t / 10) + 1) / 4) = 10 * (t / 10 + 1) := by decide
  refine ⟨hmain, fun t ht => ?_⟩
  rw [hmain t 40 40 0 (by norm_num)]
  congr 1
  rw [show (40 : ℕ) / 4 = 10 from rfl]
  exact_mod_cast hN t ht

/-- Witness for C6 at a concrete input. -/
theorem stress_formula_witness :
    (4 ≤ 40 ∧
      stressUsers 7 40 25 0 =
        some ((25 * (min 3 (7 / (40 / 4)) + 1) / 4 : ℕ) : ℤ)) ∧
    (7 < 40 ∧ stressUsers 7 40 40 0 = some ((10 * (7 / 10 + 1) : ℕ) : ℤ)) :=
  ⟨⟨by norm_num, stress_formula.1 7 40 25 0 (by norm_num)⟩,
   ⟨by norm_num, stress_formula.2 7 (by norm_num)⟩⟩

/-- Bounds for the `Math.max(1, Math.floor(max * q))` pattern. -/
lemma max_one_floor_bound (m : ℕ) (hm : 1 ≤ m) {q : ℚ} (hq : q ≤ 1) :
    1 ≤ max 1 ⌊(m : ℚ) * q⌋ ∧ max 1 ⌊(m : ℚ) * q⌋ ≤ (m : ℤ) :=
  ⟨le_max_left _ _, max_le (by exact_mod_cast hm) (floor_mul_le_self m hq)⟩

/-- C1 (amended): for every profile, tick, `duration >= 1`, `maxUsers >= 1`
and `rampUp`, the active-user count is an integer in `[1, maxUsers]` —
except that the stress profile at tick 0 with `floor(duration/4) = 0`
(duration below 4) computes `0 / 0 = NaN`, which the hypothesis excludes. -/
theorem activeUsers_in_range (p : TestProfile) (t d m : ℕ) (r : ℤ)
    (hd : 1 ≤ d) (hm : 1 ≤ m)
    (hstress : p = TestProfile.stress → d / 4 = 0 → t ≠ 0) :
    ∃ u : ℤ, getUsers p t d m r = some u ∧ 1 ≤ u ∧ u ≤ (m : ℤ) := by
  have hm' : (1 : ℤ) ≤ (m : ℤ) := by exact_mod_cast hm
  cases p with
  | fixed => exact ⟨m, rfl, hm', le_refl _⟩
  | rampup =>
    rcases le_or_lt r 0 with hr | hr
    · exact ⟨m, by rw [getUsers, rampupUsers, if_pos hr], hm', le_refl _⟩
    · obtain ⟨h1, h2⟩ := max_one_floor_bound m hm
        (min_le_left 1 (((t : ℚ) + 1) / (r : ℚ)))
      exact ⟨_, by rw [getUsers, rampupUsers, if_neg (not_le.mpr hr)], h1, h2⟩
  | spike =>
    show ∃ u, spikeUsers t d m r = some u ∧ _
    simp only [spikeUsers]
    split_ifs with hc
    · exact ⟨m, rfl, hm', le_refl _⟩
    · obtain ⟨h1, h2⟩ := max_one_floor_bound m hm (show (1 : ℚ) / 10 ≤ 1 by norm_num)
      exact ⟨_, rfl, h1, h2⟩
  | stress =>
    show ∃ u, stressUsers t d m r = some u ∧ _
    simp only [stressUsers]
    by_cases h0 : d / 4 = 0
    · rw [if_pos h0, if_neg (hstress rfl h0)]
      obtain ⟨h1, h2⟩ := max_one_floor_bound m hm
        (show ((3 : ℚ) + 1) / 4 ≤ 1 by norm_num)
      exact ⟨_, rfl, h1, h2⟩
    · rw [if_neg h0]
      have hs : ((min 3 (t / (d / 4)) : ℕ) : ℚ) + 1 ≤ 4 := by
        have h3 : (min 3 (t / (d / 4)) : ℕ) ≤ 3 := min_le_left _ _
        have h3' : ((min 3 (t / (d / 4)) : ℕ) : ℚ) ≤ 3 := by exact_mod_cast h3
        linarith
      obtain ⟨h1, h2⟩ := max_one_floor_bound m hm
        ((div_le_one (by norm_num)).mpr hs)
      exact ⟨_, rfl, h1, h2⟩
  | custom =>
    rcases le_or_lt r 0 with hr | hr
    · exact ⟨m, by rw [getUsers, customUsers, if_pos hr], hm', le_refl _⟩
    · obtain ⟨h1, h2⟩ := max_one_floor_bound m hm
        (min_le_left 1 (((t : ℚ) + 1) / (r : ℚ)))
      exact ⟨_, by rw [getUsers, customUsers, if_neg (not_le.mpr hr)], h1, h2⟩

/-- Witness for the amended C1 at a concrete input. -/
theorem activeUsers_in_range_witness :
    (1 ≤ 4 ∧ 1 ≤ 1) ∧
      ∃ u : ℤ, getUsers TestProfile.stress 0 4 1 0 = some u ∧ 1 ≤ u ∧ u ≤ (1 : ℤ) :=
  ⟨⟨by norm_num, by norm_num⟩,
   activeUsers_in_range TestProfile.stress 0 4 1 0 (by norm_num) (by norm_num)
     (fun _ h => absurd h (by norm_num))⟩

/-- C1 counterexample: at `duration = 1` (allowed by the claim, which
quantifies over every `duration >= 1`) the stress profile's tick 0 divides
by a zero stage length, JavaScript computes `0 / 0 = NaN`, and no integer
in `[1, maxUsers]` is returned. -/
theorem activeUsers_stress_nan :
    ¬ ∃ u : ℤ, getUsers TestProfile.stress 0 1 1 0 = some u ∧ 1 ≤ u ∧ u ≤ (1 : ℤ) := by
  rintro ⟨u, hu, -, -⟩
  have hnone : getUsers TestProfile.stress 0 1 1 0 = none := rfl
  rw [hnone] at hu
  exact Option.noConfusion hu

/-- Reading a list at an in-range index with a default yields the element. -/
lemma get?_eq_getD {s : List ℤ} {i : ℕ} (h : i < s.length) :
    s.get? i = some (s.getD i 0) := by
  rw [List.getD_eq_get?, List.get?_eq_get h]
  rfl

/-- C4: for every latency list, the p95/p99 indices
`floor(sortedCount * 0.95)` and `floor(sortedCount * 0.99)` are in range
when the list is non-empty and the percentile is exactly the sorted list's
element there; on the empty list average and both percentiles are 0 with no
division by zero or out-of-range access. -/
theorem percentile_safety :
    (∀ l : List ℤ, l ≠ [] →
        pIdx l.length (95 / 100) < l.length ∧
        pIdx l.length (99 / 100) < l.length ∧
        (sortAsc l).get? (pIdx (sortAsc l).length (95 / 100)) =
          some (pctl l (95 / 100)) ∧
        (sortAsc l).get? (pIdx (sortAsc l).length (99 / 100)) =
          some (pctl l (99 / 100))) ∧
    (pctl [] (95 / 100) = 0 ∧ pctl [] (99 / 100) = 0 ∧ listAvg [] = 0) := by
  constructor
  · intro l hl
    have hlen : (sortAsc l).length = l.length :=
      (List.perm_insertionSort _ l).length_eq
    have hne : l.length ≠ 0 := fun h => hl (List.length_eq_zero.mp h)
    have h95 : pIdx l.length (95 / 100) < l.length := pIdx_lt _ hne (by norm_num)
    have h99 : pIdx l.length (99 / 100) < l.length := pIdx_lt _ hne (by norm_num)
    have hne' : (sortAsc l).length ≠ 0 := by rw [hlen]; exact hne
    have hb95 : pIdx (sortAsc l).length (95 / 100) < (sortAsc l).length := by
      rw [hlen]; exact h95
    have hb99 : pIdx (sortAsc l).length (99 / 100) < (sortAsc l).length := by
      rw [hlen]; exact h99
    refine ⟨h95, h99, ?_, ?_⟩
    · simp only [pctl]
      rw [if_pos hne']
      exact get?_eq_getD hb95
    · simp only [pctl]
      rw [if_pos hne']
      exact get?_eq_getD hb99
  · refine ⟨rfl, rfl, rfl⟩

/-- Witness for C4 at a concrete input. -/
theorem percentile_safety_witness :
    ([(5 : ℤ), 7] ≠ []) ∧
      pIdx ([(5 : ℤ), 7]).length (95 / 100) < ([(5 : ℤ), 7]).length ∧
      pIdx ([(5 : ℤ), 7]).length (99 / 100) < ([(5 : ℤ), 7]).length ∧
      (sortAsc [(5 : ℤ), 7]).get? (pIdx (sortAsc [(5 : ℤ), 7]).length (95 / 100)) =
        some (pctl [(5 : ℤ), 7] (95 / 100)) ∧
      (sortAsc [(5 : ℤ), 7]).get? (pIdx (sortAsc [(5 : ℤ), 7]).length (99 / 100)) =
        some (pctl [(5 : ℤ), 7] (99 / 100)) :=
  ⟨by simp, percentile_safety.1 [(5 : ℤ), 7] (by simp)⟩

/-- The summary's minimum, rounded average and maximum are ordered, for any
accumulated run state. -/
lemma summary_min_avg_max (duration : ℕ) (acc : RunAcc) :
    (mkSummary duration acc).minResponseTime ≤ (mkSummary duration acc).avgResponseTime ∧
    (mkSummary duration acc).avgResponseTime ≤ (mkSummary duration acc).maxResponseTime := by
  simp only [mkSummary]
  cases hsl : sortAsc acc.allTimes with
  | nil => simp [hsl]
  | cons a rest =>
    have hs : (a :: rest).Sorted (fun x y => x ≤ y) := by
      rw [← hsl]; exact List.sorted_insertionSort _ _
    have hne : (a :: rest) ≠ [] := by simp
    have hlenpos : (0 : ℚ) < ((a :: rest).length : ℚ) := by
      have hp : 0 < (a :: rest).length := by simp
      exact_mod_cast hp
    have hlow : ((a :: rest).length : ℤ) * a ≤ (a :: rest).sum := by
      have h := List.card_nsmul_le_sum (a :: rest) a (sorted_head_le hs)
      rwa [nsmul_eq_mul] at h
    have hhigh : (a :: rest).sum ≤ ((a :: rest).length : ℤ) * (a :: rest).getLast hne := by
      have h := List.sum_le_card_nsmul (a :: rest) _ (mem_le_getLast hs hne)
      rwa [nsmul_eq_mul] at h
    have havg_lo : (a : ℚ) ≤ listAvg (a :: rest) := by
      rw [listAvg, if_pos (by simp)]
      rw [le_div_iff hlenpos]
      calc (a : ℚ) * ((a :: rest).length : ℚ)
          = (((a :: rest).length : ℤ) * a : ℤ) := by push_cast; ring
        _ ≤ ((a :: rest).sum : ℚ) := by exact_mod_cast hlow
    have havg_hi : listAvg (a :: rest) ≤ ((a :: rest).getLast hne : ℚ) := by
      rw [listAvg, if_pos (by simp)]
      rw [div_le_iff hlenpos]
      calc ((a :: rest).sum : ℚ)
          ≤ (((a :: rest).length : ℤ) * (a :: rest).getLast hne : ℤ) := by
            exact_mod_cast hhigh
        _ = ((a :: rest).getLast hne : ℚ) * ((a :: rest).length : ℚ) := by
            push_cast; ring
    have hlast : (a :: rest).getLastD 0 = (a :: rest).getLast hne := by
      rw [List.getLastD_eq_getLast?, List.getLast?_eq_getLast _ hne]
      rfl
    constructor
    · rw [if_pos (by simp : (a :: rest).length ≠ 0), List.headD_cons]
      exact le_jsRound havg_lo
    · rw [if_pos (by simp : (a :: rest).length ≠ 0), hlast]
      exact jsRound_le havg_hi

/-- C3: every terminal run's summary satisfies
`successCount + errorCount = totalRequests`, and when any request was made
its minimum, average and maximum latencies are ordered
`min <= avg <= max`. -/
theorem summary_invariant (duration : ℕ) (ticks : List (List ReqOutcome)) :
    (runTest duration ticks).successCount + ((runTest duration ticks).errorCount : ℤ) =
      ((runTest duration ticks).totalRequests : ℤ) ∧
    (0 < (runTest duration ticks).totalRequests →
      (runTest duration ticks).minResponseTime ≤ (runTest duration ticks).avgResponseTime ∧
      (runTest duration ticks).avgResponseTime ≤ (runTest duration ticks).maxResponseTime) := by
  constructor
  · simp only [runTest, mkSummary]
    ring
  · intro _
    exact summary_min_avg_max duration (runAggregate ticks)

/-- Witness for C3 at a concrete input. -/
theorem summary_invariant_witness :
    0 < (runTest 1 [[ReqOutcome.success 5]]).totalRequests ∧
      ((runTest 1 [[ReqOutcome.success 5]]).minResponseTime ≤
        (runTest 1 [[ReqOutcome.success 5]]).avgResponseTime ∧
       (runTest 1 [[ReqOutcome.success 5]]).avgResponseTime ≤
        (runTest 1 [[ReqOutcome.success 5]]).maxResponseTime) :=
  ⟨by decide, (summary_invariant 1 [[ReqOutcome.success 5]]).2 (by decide)⟩

/-- C9: a successful request measured at exactly 0 ms is counted in
`totalRequests` and appended to the full-run latency history `allTimes`
(thus reaching the final summary), but is dropped by the tick's
`filter(r > 0)`, so the tick's local average, p95 and p99 are exactly those
of the same tick without it. -/
theorem zero_latency_tick (acc : RunAcc) (t : ℕ) (pre post : List ReqOutcome) :
    (stepTick acc t (pre ++ ReqOutcome.success 0 :: post)).totalReqs =
        acc.totalReqs + (pre.length + post.length + 1) ∧
    (stepTick acc t (pre ++ ReqOutcome.success 0 :: post)).allTimes =
        acc.allTimes ++ (tickTimes pre ++ (0 : ℤ) :: tickTimes post) ∧
    (0 : ℤ) ∈ tickTimes (pre ++ ReqOutcome.success 0 :: post) ∧
    ((stepTick acc t (pre ++ ReqOutcome.success 0 :: post)).metrics.getLast?).map
        (fun pt => (pt.avgResponseTime, pt.p95, pt.p99)) =
      ((stepTick acc t (pre ++ post)).metrics.getLast?).map
        (fun pt => (pt.avgResponseTime, pt.p95, pt.p99)) := by
  have hdec : (decide ((0 : ℤ) < 0)) = false := rfl
  have hvalid :
      (tickResults (pre ++ ReqOutcome.success 0 :: post)).filter (fun r => decide (0 < r)) =
        (tickResults (pre ++ post)).filter (fun r => decide (0 < r)) := by
    simp [tickResults, List.filter_append, List.filter_cons, resultOf, hdec]
  refine ⟨?_, ?_, ?_, ?_⟩
  · simp only [stepTick, List.length_append, List.length_cons]
    omega
  · simp [stepTick, tickTimes, List.filterMap_append]
  · simp [tickTimes]
  · simp only [stepTick, hvalid, List.getLast?_concat, Option.map_some']
